import Mathlib

/-!
Shallow embedding of the configuration, validation and dispatch layer of the
afft library (headers under `include/afft`), together with proofs about the
behaviour of its validation and derivation routines.

The embedding follows the C++ sources:
* `detail/TransformConfig.hpp` — transform configuration, axis validation,
  normalization factor, element sizes, stride correction;
* `detail/DimensionsConfig.hpp` — dimensions configuration;
* `Plan.hpp` — execute-time validation and dispatch.

C++ exceptions are modelled with `Except`; machine pointers are modelled as
natural-number addresses with `0` playing the role of `nullptr`.  Fixed-size
`MaxDimArray<T>` members (`std::array<T, maxDimCount>`) are modelled as lists
of length `maxDimCount`, padded with the value-initialized element.
-/

deriving instance DecidableEq for Except

namespace afft

/-- Maximum number of dimensions, `AFFT_MAX_DIM_COUNT` (default `4` in
`config.hpp`). -/
def maxDimCount : Nat := 4

/-- Transform direction (`Direction`). -/
inductive Direction where
  | forward
  | inverse
deriving DecidableEq, Repr

/-- Supported floating-point precisions (declared in the missing `common.hpp`;
the supported enumerated set per the spec's numeric precision/type system). -/
inductive Precision where
  | bf16
  | f16
  | f32
  | f64
deriving DecidableEq, Repr

/-- Byte size of a precision.  Modelled from the spec: the numeric
precision/type system supplies the element byte sizes. -/
def sizeOfPrecision : Precision → Nat
  | .bf16 => 2
  | .f16 => 2
  | .f32 => 4
  | .f64 => 8

/-- Triad of execution/source/destination precisions (`PrecisionTriad`). -/
structure PrecisionTriad where
  execution : Precision
  source : Precision
  destination : Precision
deriving DecidableEq, Repr

/-- Element complexity (`Complexity`). -/
inductive Complexity where
  | real
  | complex
deriving DecidableEq, Repr

/-- Normalization mode (`Normalize`): no scaling, `1/sqrt(n)` or `1/n`. -/
inductive Normalize where
  | none
  | orthogonal
  | unitary
deriving DecidableEq, Repr

/-- Placement of the transform (`Placement`). -/
inductive Placement where
  | inPlace
  | outOfPlace
deriving DecidableEq, Repr

/-- Execution target (`Target`). -/
inductive Target where
  | cpu
  | gpu
deriving DecidableEq, Repr

/-- Distribution mode (`Distribution`): single-process single-target,
single-process multi-target, multi-process single-target. -/
inductive Distribution where
  | spst
  | spmt
  | mpst
deriving DecidableEq, Repr

/-- DFT memory format (`dft::Format`, declared in the missing `common.hpp`;
the five alternatives used by `TransformConfig.hpp`). -/
inductive DftFormat where
  | real
  | complexInterleaved
  | complexPlanar
  | hermitianComplexInterleaved
  | hermitianComplexPlanar
deriving DecidableEq, Repr

/-- DTT transform type (`dtt::Type`).  A C++ enum can carry any underlying
value, so the model keeps the raw value; the enumerators of `transform.hpp`
are `dct1 = 0`, `dct2 = 1`, `dct3 = 2`, `dct4 = 3`, `dst1 = 4`, `dst2 = 5`,
`dst3 = 6`, `dst4 = 7`. -/
structure DttType where
  val : Nat
deriving DecidableEq, Repr

namespace DttType

def dct1 : DttType := ⟨0⟩
def dct2 : DttType := ⟨1⟩
def dct3 : DttType := ⟨2⟩
def dct4 : DttType := ⟨3⟩
def dst1 : DttType := ⟨4⟩
def dst2 : DttType := ⟨5⟩
def dst3 : DttType := ⟨6⟩
def dst4 : DttType := ⟨7⟩

end DttType

/-- Errors arising in `TransformConfig::checkAxes`.  All but
`bitsetOutOfRange` correspond to `std::invalid_argument` exceptions;
`bitsetOutOfRange` is the `std::out_of_range` thrown by
`std::bitset<maxDimCount>::test` when the position is out of bounds. -/
inductive AxesError where
  | emptyAxes
  | rankExceedsShapeRank
  | rankExceedsMaxRank
  | axisOutOfBounds
  | duplicateAxis
  | bitsetOutOfRange
deriving DecidableEq, Repr

/-- Whether an `AxesError` corresponds to a `std::invalid_argument` throw. -/
def AxesError.isInvalidArgument : AxesError → Bool
  | .bitsetOutOfRange => false
  | _ => true

/-- The per-axis loop of `TransformConfig::checkAxes`: for each axis, check
it against the shape rank, then query the `seenAxes` bitset (which throws
`std::out_of_range` for positions `≥ maxDimCount`), reject duplicates, and
record the axis. -/
def checkAxesLoop (shapeRank : Nat) (seen : Nat → Bool) :
    List Nat → Except AxesError Unit
  | [] => .ok ()
  | axis :: rest =>
    if shapeRank ≤ axis then
      .error .axisOutOfBounds
    else if maxDimCount ≤ axis then
      .error .bitsetOutOfRange
    else if seen axis then
      .error .duplicateAxis
    else
      checkAxesLoop shapeRank (fun j => if j = axis then true else seen j) rest

/-- `TransformConfig::checkAxes(axes, shapeRank)`. -/
def checkAxes (axes : List Nat) (shapeRank : Nat) : Except AxesError Unit :=
  if axes = [] then
    .error .emptyAxes
  else if shapeRank < axes.length then
    .error .rankExceedsShapeRank
  else if maxDimCount < axes.length then
    .error .rankExceedsMaxRank
  else
    checkAxesLoop shapeRank (fun _ => false) axes

theorem checkAxesLoop_ok_iff (axes : List Nat) (shapeRank : Nat)
    (seen : Nat → Bool) :
    checkAxesLoop shapeRank seen axes = .ok () ↔
      (∀ a ∈ axes, a < shapeRank ∧ a < maxDimCount ∧ seen a = false) ∧
        axes.Nodup := by
  induction axes generalizing seen with
  | nil => simp [checkAxesLoop]
  | cons axis rest ih =>
    simp only [checkAxesLoop]
    by_cases h1 : shapeRank ≤ axis
    · simp only [if_pos h1]
      constructor
      · intro h; cases h
      · rintro ⟨hall, -⟩
        have := (hall axis (by simp)).1
        omega
    · simp only [if_neg h1]
      by_cases h2 : maxDimCount ≤ axis
      · simp only [if_pos h2]
        constructor
        · intro h; cases h
        · rintro ⟨hall, -⟩
          have := (hall axis (by simp)).2.1
          omega
      · simp only [if_neg h2]
        by_cases h3 : seen axis = true
        · simp only [if_pos h3]
          constructor
          · intro h; cases h
          · rintro ⟨hall, -⟩
            have := (hall axis (by simp)).2.2
            rw [h3] at this
            cases this
        · simp only [if_neg h3]
          rw [ih]
          simp only [Bool.not_eq_true] at h3
          constructor
          · rintro ⟨hall, hnd⟩
            refine ⟨?_, ?_⟩
            · intro a ha
              rcases List.mem_cons.mp ha with rfl | ha'
              · exact ⟨by omega, by omega, h3⟩
              · have := hall a ha'
                refine ⟨this.1, this.2.1, ?_⟩
                have hne : a ≠ axis := by
                  intro hcontra
                  rw [hcontra] at this
                  simp at this
                have := this.2.2
                simpa [hne] using this
            · refine List.nodup_cons.mpr ⟨?_, hnd⟩
              intro hmem
              have := (hall axis hmem).2.2
              simp at this
          · rintro ⟨hall, hnd⟩
            have hnd' := List.nodup_cons.mp hnd
            refine ⟨?_, hnd'.2⟩
            intro a ha
            have := hall a (List.mem_cons_of_mem _ ha)
            refine ⟨this.1, this.2.1, ?_⟩
            have hne : a ≠ axis := by
              intro hcontra
              exact hnd'.1 (hcontra ▸ ha)
            simp [hne, this.2.2]

theorem checkAxesLoop_no_oob (axes : List Nat) (shapeRank : Nat)
    (seen : Nat → Bool) (hlt : ∀ a ∈ axes, a < maxDimCount) :
    checkAxesLoop shapeRank seen axes ≠ .error .bitsetOutOfRange := by
  induction axes generalizing seen with
  | nil => simp [checkAxesLoop]
  | cons axis rest ih =>
    simp only [checkAxesLoop]
    have haxis : axis < maxDimCount := hlt axis (by simp)
    by_cases h1 : shapeRank ≤ axis
    · simp [h1]
    · simp only [if_neg h1, if_neg (by omega : ¬ maxDimCount ≤ axis)]
      by_cases h3 : seen axis = true
      · simp [h3]
      · simp only [if_neg h3]
        exact ih _ (fun a ha => hlt a (List.mem_cons_of_mem _ ha))

/-- `checkAxes` succeeds exactly on non-empty lists of distinct axes that
are in bounds for both the shape rank and the bitset size. -/
theorem checkAxes_ok_iff (axes : List Nat) (shapeRank : Nat) :
    checkAxes axes shapeRank = .ok () ↔
      axes ≠ [] ∧ axes.length ≤ shapeRank ∧ axes.length ≤ maxDimCount ∧
        (∀ a ∈ axes, a < shapeRank ∧ a < maxDimCount) ∧ axes.Nodup := by
  unfold checkAxes
  by_cases h0 : axes = []
  · simp [h0]
  · simp only [if_neg h0]
    by_cases h1 : shapeRank < axes.length
    · constructor
      · intro h; simp [if_pos h1] at h
      · rintro ⟨-, hle, -⟩; omega
    · simp only [if_neg h1]
      by_cases h2 : maxDimCount < axes.length
      · constructor
        · intro h; simp [if_pos h2] at h
        · rintro ⟨-, -, hle, -⟩; omega
      · simp only [if_neg h2]
        rw [checkAxesLoop_ok_iff]
        constructor
        · rintro ⟨hall, hnd⟩
          exact ⟨h0, by omega, by omega, fun a ha => ⟨(hall a ha).1, (hall a ha).2.1⟩, hnd⟩
        · rintro ⟨-, -, -, hall, hnd⟩
          exact ⟨fun a ha => ⟨(hall a ha).1, (hall a ha).2, rfl⟩, hnd⟩

theorem checkAxes_no_oob (axes : List Nat) (shapeRank : Nat)
    (hlt : ∀ a ∈ axes, a < maxDimCount) :
    checkAxes axes shapeRank ≠ .error .bitsetOutOfRange := by
  unfold checkAxes
  by_cases h0 : axes = []
  · simp [h0]
  · simp only [if_neg h0]
    by_cases h1 : shapeRank < axes.length
    · simp [h1]
    · simp only [if_neg h1]
      by_cases h2 : maxDimCount < axes.length
      · simp [h2]
      · simp only [if_neg h2]
        exact checkAxesLoop_no_oob axes shapeRank _ hlt

/-- Pad a list to `maxDimCount` entries with a default element, modelling a
value-initialized `MaxDimArray<T>` whose first entries were copied from a
range (`std::copy` / `std::fill_n` into a default-initialized array). -/
def padArray {α : Type} (dflt : α) (l : List α) : List α :=
  l ++ List.replicate (maxDimCount - l.length) dflt

/-- User-facing `Dimensions`: a logical shape plus optional explicit strides
(empty view means "derive automatically"). -/
structure Dimensions where
  shape : List Nat
  srcStride : List Nat := []
  dstStride : List Nat := []
deriving DecidableEq, Repr

/-- Errors thrown by the `DimensionsConfig` constructor (all
`std::runtime_error`). -/
inductive DimsError where
  | tooManyDimensions
  | invalidDimensionSize
  | invalidSrcStrideSize
  | invalidDstStrideSize
deriving DecidableEq, Repr

/-- `DimensionsConfig`: rank, shape and both stride arrays
(`MaxDimArray<std::size_t>` members, zero-padded). -/
structure DimensionsConfig where
  mRank : Nat
  mShape : List Nat
  mSrcStrides : List Nat
  mDstStrides : List Nat
deriving DecidableEq, Repr

/-- The stride-copying part of the `DimensionsConfig` constructor: a supplied
stride sequence must match the rank in length and be element-wise non-zero;
an empty sequence leaves the strides zero-initialized. -/
def copyStrides (s : List Nat) (rank : Nat) (sizeErr : DimsError) :
    Except DimsError (List Nat) :=
  if s.length = rank then
    if s.contains 0 then .error .invalidDimensionSize else .ok (padArray 0 s)
  else if s = [] then
    .ok (List.replicate maxDimCount 0)
  else
    .error sizeErr

/-- `DimensionsConfig::DimensionsConfig(const Dimensions&)`. -/
def mkDimensionsConfig (dims : Dimensions) : Except DimsError DimensionsConfig :=
  let rank := dims.shape.length
  if maxDimCount < rank then
    .error .tooManyDimensions
  else if dims.shape.contains 0 then
    .error .invalidDimensionSize
  else
    match copyStrides dims.srcStride rank .invalidSrcStrideSize with
    | .error e => .error e
    | .ok src =>
      match copyStrides dims.dstStride rank .invalidDstStrideSize with
      | .error e => .error e
      | .ok dst => .ok ⟨rank, padArray 0 dims.shape, src, dst⟩

/-- `DimensionsConfig::hasSrcStride`: the first stride entry is non-zero. -/
def DimensionsConfig.hasSrcStride (d : DimensionsConfig) : Bool :=
  d.mSrcStrides.getD 0 0 != 0

/-- `DimensionsConfig::hasDstStride`. -/
def DimensionsConfig.hasDstStride (d : DimensionsConfig) : Bool :=
  d.mDstStrides.getD 0 0 != 0

/-- `DimensionsConfig::getShape` (a span over the first `mRank` entries). -/
def DimensionsConfig.getShape (d : DimensionsConfig) : List Nat :=
  d.mShape.take d.mRank

/-- `DftConfig`: source and destination DFT formats. -/
structure DftConfig where
  srcFormat : DftFormat
  dstFormat : DftFormat
deriving DecidableEq, Repr

/-- `DttConfig`: per-axis DTT types (`MaxDimArray<dtt::Type>`, padded with
the value-initialized `dtt::Type{}`, i.e. `dct1`). -/
structure DttConfig where
  axisTypes : List DttType
deriving DecidableEq, Repr

/-- `TransformConfig::ConfigVariant` (a `std::variant`; the alternative index
is the transform type: `dft` then `dtt`). -/
inductive ConfigVariant where
  | dft (c : DftConfig)
  | dtt (c : DttConfig)
deriving DecidableEq, Repr

/-- `TransformConfig`: direction, precision triad, rank, axes
(`MaxDimArray<std::size_t>`, zero-padded) and the variant payload. -/
structure TransformConfig where
  mDirection : Direction
  mPrec : PrecisionTriad
  mRank : Nat
  mAxes : List Nat
  mVariant : ConfigVariant
deriving DecidableEq, Repr

/-- The private `TransformConfig` constructor: records the axes' length as
the rank and copies the axes into the zero-initialized member array. -/
def TransformConfig.make' (dir : Direction) (prec : PrecisionTriad)
    (axes : List Nat) (variant : ConfigVariant) : TransformConfig :=
  ⟨dir, prec, axes.length, padArray 0 axes, variant⟩

/-- `TransformConfig::getAxes`: a span over the first `mRank` axes. -/
def TransformConfig.getAxes (c : TransformConfig) : List Nat :=
  c.mAxes.take c.mRank

/-- Errors thrown by the `TransformConfig::make` overloads. -/
inductive MakeError where
  | axes (e : AxesError)
  | invalidFormats
  | invalidDttType
  | invalidDttTypes
deriving DecidableEq, Repr

/-- The source/destination format compatibility switch in
`TransformConfig::make(const dft::Parameters&)`: a real source admits only
the two complex destination formats; the two complex sources admit any
destination; every other source format (the hermitian-complex ones) is
rejected by the `default:` branch. -/
def dftFormatsOk (src dst : DftFormat) : Bool :=
  match src with
  | .real =>
    match dst with
    | .complexInterleaved => true
    | .complexPlanar => true
    | _ => false
  | .complexInterleaved => true
  | .complexPlanar => true
  | _ => false

/-- `dft::Parameters` as consumed by `TransformConfig::make` (declared in the
missing `common.hpp`; fields per their uses in `TransformConfig.hpp`). -/
structure DftParameters where
  direction : Direction
  precision : PrecisionTriad
  dimensions : Dimensions
  axes : List Nat
  srcFormat : DftFormat
  dstFormat : DftFormat
deriving Repr

/-- `dtt::Parameters` as consumed by `TransformConfig::make`. -/
structure DttParameters where
  direction : Direction
  precision : PrecisionTriad
  dimensions : Dimensions
  axes : List Nat
  types : List DttType
deriving Repr

/-- `TransformConfig::checkDirection`: both modelled direction values are
accepted (the `default:` branch only catches out-of-range enum values). -/
def checkDirection (_ : Direction) : Except MakeError Unit := .ok ()

/-- `TransformConfig::checkPrecision`: every modelled precision belongs to
the supported set, so the check succeeds. -/
def checkPrecisionTriad (_ : PrecisionTriad) : Except MakeError Unit := .ok ()

/-- `TransformConfig::make(const dft::Parameters&)`. -/
def makeDft (p : DftParameters) : Except MakeError TransformConfig :=
  match checkAxes p.axes p.dimensions.shape.length with
  | .error e => .error (.axes e)
  | .ok () =>
    if dftFormatsOk p.srcFormat p.dstFormat then
      .ok (TransformConfig.make' p.direction p.precision p.axes
            (.dft ⟨p.srcFormat, p.dstFormat⟩))
    else
      .error .invalidFormats

/-- The `checkDttType` lambda in `TransformConfig::make(const dtt::Parameters&)`:
accepts exactly the 8 enumerators `dct1..dct4`, `dst1..dst4` (underlying
values `0..7`). -/
def checkDttType (t : DttType) : Except MakeError Unit :=
  if t.val < 8 then .ok () else .error .invalidDttType

/-- Sequentially check a list of DTT types (`std::for_each`). -/
def checkDttTypes : List DttType → Except MakeError Unit
  | [] => .ok ()
  | t :: rest =>
    match checkDttType t with
    | .error e => .error e
    | .ok () => checkDttTypes rest

/-- `TransformConfig::make(const dtt::Parameters&)`. -/
def makeDtt (p : DttParameters) : Except MakeError TransformConfig :=
  match checkAxes p.axes p.dimensions.shape.length with
  | .error e => .error (.axes e)
  | .ok () =>
    if p.types.length = 1 then
      match checkDttType (p.types.getD 0 ⟨0⟩) with
      | .error e => .error e
      | .ok () =>
        .ok (TransformConfig.make' p.direction p.precision p.axes
              (.dtt ⟨padArray ⟨0⟩ (List.replicate p.axes.length (p.types.getD 0 ⟨0⟩))⟩))
    else if p.types.length = p.axes.length then
      match checkDttTypes p.types with
      | .error e => .error e
      | .ok () =>
        .ok (TransformConfig.make' p.direction p.precision p.axes
              (.dtt ⟨padArray ⟨0⟩ p.types⟩))
    else
      .error .invalidDttTypes

/-- `operator==(const TransformConfig&, const TransformConfig&)`: compares
the rank, the first `mRank` axes, and the variant payload (direction and
precision are not compared). -/
def tcEq (lhs rhs : TransformConfig) : Bool :=
  if lhs.mRank ≠ rhs.mRank then
    false
  else if (List.range lhs.mRank).any
      (fun i => lhs.mAxes.getD i 0 ≠ rhs.mAxes.getD i 0) then
    false
  else
    lhs.mVariant = rhs.mVariant

/-- `TransformConfig::getSrcElemSizeOf`: byte size of the source precision,
doubled for the interleaved complex DFT source formats. -/
def TransformConfig.getSrcElemSizeOf (c : TransformConfig) : Nat :=
  let base := sizeOfPrecision c.mPrec.source
  match c.mVariant with
  | .dft d =>
    match d.srcFormat with
    | .complexInterleaved => base * 2
    | .hermitianComplexInterleaved => base * 2
    | _ => base
  | _ => base

/-- `TransformConfig::getDstElemSizeOf`. -/
def TransformConfig.getDstElemSizeOf (c : TransformConfig) : Nat :=
  let base := sizeOfPrecision c.mPrec.destination
  match c.mVariant with
  | .dft d =>
    match d.dstFormat with
    | .complexInterleaved => base * 2
    | .hermitianComplexInterleaved => base * 2
    | _ => base
  | _ => base

/-- Errors thrown inside `TransformConfig::getNormFactor`:
`std::bad_variant_access` from `std::get<DttConfig>` on a DFT variant, and
the two `std::runtime_error` throws. -/
inductive NormError where
  | badVariantAccess
  | invalidAxisType
  | invalidTransformType
deriving DecidableEq, Repr

/-- Symbolic value of a normalization factor computed in the execution
precision: `1`, `1/sqrt(n)` or `1/n`. -/
inductive NormResult where
  | one
  | invSqrt (n : Nat)
  | inv (n : Nat)
deriving DecidableEq, Repr

/-- Per-axis contribution of a DTT type in the `getNormFactor` loop
(`dct1 → 2*(size-1)`, `dst1 → 2*(size+1)`, other supported kinds →
`2*size`, anything else throws).  Axis extents are strictly positive for
every validated shape, so the `size - 1` truncated subtraction agrees with
the `size_t` arithmetic of the source. -/
def dttAxisContribution (t : DttType) (axisSize : Nat) : Except NormError Nat :=
  if t.val = 0 then .ok (2 * (axisSize - 1))
  else if t.val = 4 then .ok (2 * (axisSize + 1))
  else if t.val < 8 then .ok (2 * axisSize)
  else .error .invalidAxisType

/-- The DTT accumulation loop of `getNormFactor` over `(type, axis size)`
pairs. -/
def dttNormLoop : List (DttType × Nat) → Nat → Except NormError Nat
  | [], n => .ok n
  | (t, size) :: rest, n =>
    match dttAxisContribution t size with
    | .error e => .error e
    | .ok c => dttNormLoop rest (n * c)

/-- `TransformConfig::getNormFactor` as written: the `switch` over the
transform type has no `break` statements, so the `dft` case falls through
into the `dtt` case — where `std::get<DttConfig>` on a variant holding a
`DftConfig` throws `std::bad_variant_access` — and the `dtt` case falls
through into `default:`, which throws `"Invalid transform type"`.  Every
call therefore throws before reaching the normalization `switch`, whatever
the configuration and shape. -/
def TransformConfig.getNormFactor (c : TransformConfig) (shape : List Nat) :
    Except NormError NormResult :=
  match c.mVariant with
  | .dft _ => .error .badVariantAccess
  | .dtt d =>
    match dttNormLoop
        ((d.axisTypes.take c.mRank).zip (c.getAxes.map (fun a => shape.getD a 0))) 1 with
    | .error e => .error e
    | .ok _ => .error .invalidTransformType

/-- Modelled from the spec: the intended normalization factor of
`TransformConfig::getNormFactor` with the transform-type branches treated as
mutually exclusive (`n` is the product over the transform axes of the
per-axis contribution — the axis extent for DFT, the type-transformed extent
for DTT — and the factor is `1`, `1/sqrt(n)` or `1/n` by normalization
mode). -/
def normFactorSpec (c : TransformConfig) (normalize : Normalize)
    (shape : List Nat) : Except NormError NormResult :=
  let axisSizes := c.getAxes.map (fun a => shape.getD a 0)
  let nE : Except NormError Nat :=
    match c.mVariant with
    | .dft _ => .ok axisSizes.prod
    | .dtt d => dttNormLoop ((d.axisTypes.take c.mRank).zip axisSizes) 1
  match nE with
  | .error e => .error e
  | .ok n =>
    match normalize with
    | .none => .ok .one
    | .orthogonal => .ok (.invSqrt n)
    | .unitary => .ok (.inv n)

/-- Common transform parameters consumed by `correctDimensionsConfig`
(declared in the missing `common.hpp`; fields per their uses). -/
structure CommonParameters where
  normalize : Normalize := .none
  placement : Placement := .outOfPlace
deriving DecidableEq, Repr

/-- Write a derived stride sequence through the span returned by
`getSrcStride` (the first `mRank` entries of the member array). -/
def DimensionsConfig.setSrcStrides (d : DimensionsConfig) (s : List Nat) :
    DimensionsConfig :=
  { d with mSrcStrides := s ++ d.mSrcStrides.drop s.length }

/-- Write a derived stride sequence through the span returned by
`getDstStride`. -/
def DimensionsConfig.setDstStrides (d : DimensionsConfig) (s : List Nat) :
    DimensionsConfig :=
  { d with mDstStrides := s ++ d.mDstStrides.drop s.length }

/-- The `generateStrides` loop of `TransformConfig::correctDimensionsConfig`:
iteration `i = 0` writes `strides[rank-1] = 1`, and iteration `i ≥ 1` writes
`strides[axis] = fn(axis+1, strides[axis+1])` for `axis = rank-i-1`.  The
auxiliary function builds the strides of the last `k` axes. -/
def genStridesAux (fn : Nat → Nat → Nat) (rank : Nat) : Nat → List Nat
  | 0 => []
  | 1 => [1]
  | k + 2 =>
    match genStridesAux fn rank (k + 1) with
    | [] => [1]
    | p :: t => fn (rank - k - 1) p :: p :: t

/-- The full stride sequence produced by `generateStrides`. -/
def genStrides (fn : Nat → Nat → Nat) (rank : Nat) : List Nat :=
  genStridesAux fn rank rank

/-- `defaultStrideGenerator`: `shape[axis] * prevStride`. -/
def defaultStrideGenerator (shape : List Nat) (axis prevStride : Nat) : Nat :=
  shape.getD axis 0 * prevStride

/-- `dftHermitComplexStrideGenerator`: the reduced axis contributes
`shape[axis]/2 + 1` instead of `shape[axis]`. -/
def dftHermitComplexStrideGenerator (shape : List Nat) (redAxis axis prevStride : Nat) :
    Nat :=
  (if axis = redAxis then shape.getD axis 0 / 2 + 1 else shape.getD axis 0) * prevStride

/-- `dftRealStrideGenerator`: for in-place placement the reduced axis
contributes `2 * (shape[axis]/2 + 1)`. -/
def dftRealStrideGenerator (shape : List Nat) (redAxis : Nat)
    (placement : Placement) (axis prevStride : Nat) : Nat :=
  (if placement = .inPlace ∧ axis = redAxis then 2 * (shape.getD axis 0 / 2 + 1)
   else shape.getD axis 0) * prevStride

/-- The body of the `case TransformType::dft:` label of the source-stride
`switch` in `correctDimensionsConfig`: generate source strides with the
format-matching generator.  For a non-DFT configuration the `switch` jumps
straight to `default:` and this pass does not run. -/
def srcStrideCasePass (cfg : TransformConfig) (d : DimensionsConfig)
    (shape : List Nat) (rank redAxis : Nat) (placement : Placement) :
    DimensionsConfig :=
  match cfg.mVariant with
  | .dft c =>
    match c.srcFormat with
    | .hermitianComplexInterleaved =>
      d.setSrcStrides (genStrides (dftHermitComplexStrideGenerator shape redAxis) rank)
    | .hermitianComplexPlanar =>
      d.setSrcStrides (genStrides (dftHermitComplexStrideGenerator shape redAxis) rank)
    | .real =>
      d.setSrcStrides (genStrides (dftRealStrideGenerator shape redAxis placement) rank)
    | _ =>
      d.setSrcStrides (genStrides (defaultStrideGenerator shape) rank)
  | _ => d

/-- Destination-side analogue of `srcStrideCasePass`, keyed on the
destination format. -/
def dstStrideCasePass (cfg : TransformConfig) (d : DimensionsConfig)
    (shape : List Nat) (rank redAxis : Nat) (placement : Placement) :
    DimensionsConfig :=
  match cfg.mVariant with
  | .dft c =>
    match c.dstFormat with
    | .hermitianComplexInterleaved =>
      d.setDstStrides (genStrides (dftHermitComplexStrideGenerator shape redAxis) rank)
    | .hermitianComplexPlanar =>
      d.setDstStrides (genStrides (dftHermitComplexStrideGenerator shape redAxis) rank)
    | .real =>
      d.setDstStrides (genStrides (dftRealStrideGenerator shape redAxis placement) rank)
    | _ =>
      d.setDstStrides (genStrides (defaultStrideGenerator shape) rank)
  | _ => d

/-- `TransformConfig::correctDimensionsConfig`.  The reduced axis is
`mAxes.back()`, i.e. the last entry of the fixed-size member array (index
`maxDimCount - 1`), and the generator lambdas capture the dimensions
configuration at function entry.  Both the source and the destination
`switch (getType())` statements lack a `break` after the `dft` case, so
after the format-specific generation (`srcStrideCasePass` /
`dstStrideCasePass`) control falls through into the `default:` case, which
regenerates the strides with the default rule. -/
def correctDimensionsConfig (cfg : TransformConfig) (d : DimensionsConfig)
    (cp : CommonParameters) : DimensionsConfig :=
  let redAxis := cfg.mAxes.getD (maxDimCount - 1) 0
  let shape := d.getShape
  let rank := d.mRank
  let d1 :=
    if d.hasSrcStride then d
    else
      (srcStrideCasePass cfg d shape rank redAxis cp.placement).setSrcStrides
        (genStrides (defaultStrideGenerator shape) rank)
  let d2 :=
    if d1.hasDstStride then d1
    else
      (dstStrideCasePass cfg d1 shape rank redAxis cp.placement).setDstStrides
        (genStrides (defaultStrideGenerator shape) rank)
  d2

theorem srcStrideCasePass_mDstStrides (cfg : TransformConfig)
    (d : DimensionsConfig) (shape : List Nat) (rank redAxis : Nat)
    (placement : Placement) :
    (srcStrideCasePass cfg d shape rank redAxis placement).mDstStrides
      = d.mDstStrides := by
  unfold srcStrideCasePass
  cases cfg.mVariant with
  | dft c => obtain ⟨sf, df⟩ := c; cases sf <;> rfl
  | dtt c => rfl

theorem dstStrideCasePass_mSrcStrides (cfg : TransformConfig)
    (d : DimensionsConfig) (shape : List Nat) (rank redAxis : Nat)
    (placement : Placement) :
    (dstStrideCasePass cfg d shape rank redAxis placement).mSrcStrides
      = d.mSrcStrides := by
  unfold dstStrideCasePass
  cases cfg.mVariant with
  | dft c => obtain ⟨sf, df⟩ := c; cases df <;> rfl
  | dtt c => rfl

/-- Row-major strides of a shape, as the spec words the default rule:
the last axis has stride `1` and every other axis has stride
`stride[axis+1] * shape[axis+1]`; equivalently each stride is the product
of the extents of the later axes. -/
def rowMajorStrides : List Nat → List Nat
  | [] => []
  | _ :: rest => rest.prod :: rowMajorStrides rest

theorem genStridesAux_length (fn : Nat → Nat → Nat) (rank : Nat) :
    ∀ k, (genStridesAux fn rank k).length = k := by
  intro k
  induction k using Nat.strong_induction_on with
  | _ k ih =>
    match k with
    | 0 => simp [genStridesAux]
    | 1 => simp [genStridesAux]
    | k + 2 =>
      have h := ih (k + 1) (by omega)
      simp only [genStridesAux]
      cases hprev : genStridesAux fn rank (k + 1) with
      | nil => rw [hprev] at h; simp at h
      | cons p t =>
        rw [hprev] at h
        simp at h ⊢
        omega

theorem rowMajorStrides_length (s : List Nat) :
    (rowMajorStrides s).length = s.length := by
  induction s with
  | nil => rfl
  | cons x rest ih => simp [rowMajorStrides, ih]

theorem genStridesAux_default_eq (s : List Nat) :
    ∀ k, k ≤ s.length →
      genStridesAux (defaultStrideGenerator s) s.length k =
        rowMajorStrides (s.drop (s.length - k)) := by
  intro k
  induction k using Nat.strong_induction_on with
  | _ k ih =>
    match k with
    | 0 =>
      intro _
      simp [genStridesAux, List.drop_length, rowMajorStrides]
    | 1 =>
      intro hk
      have hlen : (s.drop (s.length - 1)).length = 1 := by
        rw [List.length_drop]; omega
      obtain ⟨a, ha⟩ := List.length_eq_one.mp hlen
      simp [genStridesAux, ha, rowMajorStrides]
    | k + 2 =>
      intro hk
      have hprev := ih (k + 1) (by omega) (by omega)
      have hlenprev : (genStridesAux (defaultStrideGenerator s) s.length (k + 1)).length
          = k + 1 := genStridesAux_length _ _ _
      have hm2 : s.length - (k + 2) < s.length := by omega
      have hm1 : s.length - (k + 1) < s.length := by omega
      have hidx2 : s.length - (k + 2) + 1 = s.length - (k + 1) := by omega
      have hidx1 : s.length - (k + 1) + 1 = s.length - k := by omega
      have hdropm : s.drop (s.length - (k + 2)) =
          s.get ⟨s.length - (k + 2), hm2⟩ :: s.drop (s.length - (k + 1)) := by
        rw [List.drop_eq_getElem_cons hm2, hidx2]
        simp [List.get_eq_getElem]
      have hdrop1 : s.drop (s.length - (k + 1)) =
          s.get ⟨s.length - (k + 1), hm1⟩ :: s.drop (s.length - k) := by
        rw [List.drop_eq_getElem_cons hm1, hidx1]
        simp [List.get_eq_getElem]
      cases hcase : genStridesAux (defaultStrideGenerator s) s.length (k + 1) with
      | nil => rw [hcase] at hlenprev; simp at hlenprev
      | cons p t =>
        have hpt : p :: t = rowMajorStrides (s.drop (s.length - (k + 1))) := by
          rw [← hcase, hprev]
        rw [hdrop1] at hpt
        simp only [rowMajorStrides] at hpt
        injection hpt with hp ht
        simp only [genStridesAux, hcase]
        rw [hdropm]
        simp only [rowMajorStrides]
        rw [List.cons_eq_cons]
        refine ⟨?_, ?_⟩
        · unfold defaultStrideGenerator
          rw [hdrop1]
          simp only [List.prod_cons]
          have hidx : s.length - k - 1 = s.length - (k + 1) := by omega
          rw [hidx, List.getD_eq_getElem s 0 hm1, hp]
          simp [List.get_eq_getElem]
        · rw [hdrop1]
          simp only [rowMajorStrides]
          rw [List.cons_eq_cons]
          exact ⟨hp, ht⟩

/-- `generateStrides` with the default generator produces exactly the
row-major strides of the shape. -/
theorem genStrides_default_eq (s : List Nat) :
    genStrides (defaultStrideGenerator s) s.length = rowMajorStrides s := by
  have h := genStridesAux_default_eq s s.length (le_refl _)
  simpa [genStrides] using h

/-- The fields of the plan descriptor (`detail::Desc`) consumed by the
execute-time validation of `Plan.hpp`: precision triad, reference
source/destination complexities, placement, expected buffer count per
target, the preserve-source flag, and the (target, distribution) pair. -/
structure Desc where
  precision : PrecisionTriad
  srcComplexity : Complexity
  dstComplexity : Complexity
  placement : Placement
  targetCount : Nat
  preserveSource : Bool
  target : Target
  distribution : Distribution
deriving DecidableEq, Repr

/-- Errors raised by execute-time validation (`std::invalid_argument`
throws in `Plan.hpp`), plus `cxxUnreachable` for the
`detail::cxx::unreachable()` calls. -/
inductive ExecError where
  | sourceNotPreserved
  | invalidSrcBufferCount
  | invalidDstBufferCount
  | placementMismatch
  | invalidTypePrecision
  | invalidTypeComplexity
  | invalidSrcTypePrecision
  | invalidDstTypePrecision
  | invalidSrcTypeComplexity
  | invalidDstTypeComplexity
  | nullSrcBuffer
  | nullDstBuffer
  | execParamsTargetMismatch
  | execParamsDistributionMismatch
  | cxxUnreachable
deriving DecidableEq, Repr

/-- Statically known element-type properties of a typed buffer
(`typePrecision<T>`, `typeComplexity<T>`). -/
structure TypeProps where
  precision : Precision
  complexity : Complexity
deriving DecidableEq, Repr

/-- Caller-supplied execution parameters (only the target/distribution tags
are consulted by the validation layer). -/
structure ExecParams where
  target : Target
  distribution : Distribution
deriving DecidableEq, Repr

/-- Record of a dispatched backend call: the `executeBackendImpl` overload
reached (identified by its target/distribution) and the sanitized buffer
views it receives.  Validation failures never produce such a record. -/
structure BackendCall where
  target : Target
  distribution : Distribution
  src : List Nat
  dst : List Nat
deriving DecidableEq, Repr

/-- `Plan::checkExecTypeProps`: for in-place placement the source type's
precision and complexity are each checked against both declared sides and
the destination arguments are ignored; for out-of-place both sides are
checked exactly. -/
def checkExecTypeProps (desc : Desc) (srcPrecision : Precision)
    (srcComplexity : Complexity) (dstPrecision : Precision)
    (dstComplexity : Complexity) : Except ExecError Unit :=
  match desc.placement with
  | .inPlace =>
    if srcPrecision ≠ desc.precision.source ∧
        srcPrecision ≠ desc.precision.destination then
      .error .invalidTypePrecision
    else if srcComplexity ≠ desc.srcComplexity ∧
        srcComplexity ≠ desc.dstComplexity then
      .error .invalidTypeComplexity
    else
      .ok ()
  | .outOfPlace =>
    if srcPrecision ≠ desc.precision.source then
      .error .invalidSrcTypePrecision
    else if dstPrecision ≠ desc.precision.destination then
      .error .invalidDstTypePrecision
    else if srcComplexity ≠ desc.srcComplexity then
      .error .invalidSrcTypeComplexity
    else if dstComplexity ≠ desc.dstComplexity then
      .error .invalidDstTypeComplexity
    else
      .ok ()

/-- `Plan::checkSrcIsPreserved`. -/
def checkSrcIsPreserved (desc : Desc) : Except ExecError Unit :=
  if desc.preserveSource then .ok () else .error .sourceNotPreserved

/-- `Plan::checkBufferCount`: both buffer lists must match `targetCount`. -/
def checkBufferCount (desc : Desc) (srcCount dstCount : Nat) :
    Except ExecError Unit :=
  if srcCount ≠ desc.targetCount then .error .invalidSrcBufferCount
  else if dstCount ≠ desc.targetCount then .error .invalidDstBufferCount
  else .ok ()

/-- `Plan::checkPlacement`. -/
def checkPlacement (desc : Desc) (placement : Placement) :
    Except ExecError Unit :=
  if placement ≠ desc.placement then .error .placementMismatch else .ok ()

/-- `Plan::executeImpl2`: null-pointer checks on both buffer lists, then
execution-parameter reconciliation (or default construction for the plan's
own target/distribution) and dispatch to exactly one backend entry point.
Buffers are machine addresses; `0` models `nullptr`. -/
def executeImpl2 (desc : Desc) (src dst : List Nat)
    (execParams : Option ExecParams) : Except ExecError BackendCall :=
  if src.any (fun p => p = 0) then
    .error .nullSrcBuffer
  else if dst.any (fun p => p = 0) then
    .error .nullDstBuffer
  else
    match execParams with
    | none =>
      match desc.target, desc.distribution with
      | .cpu, .spst => .ok ⟨.cpu, .spst, src, dst⟩
      | .cpu, .mpst => .ok ⟨.cpu, .mpst, src, dst⟩
      | .cpu, .spmt => .error .cxxUnreachable
      | .gpu, .spst => .ok ⟨.gpu, .spst, src, dst⟩
      | .gpu, .spmt => .ok ⟨.gpu, .spmt, src, dst⟩
      | .gpu, .mpst => .ok ⟨.gpu, .mpst, src, dst⟩
    | some ep =>
      if ep.target ≠ desc.target then
        .error .execParamsTargetMismatch
      else if ep.distribution ≠ desc.distribution then
        .error .execParamsDistributionMismatch
      else
        .ok ⟨desc.target, desc.distribution, src, dst⟩

/-- The placement inferred from pointer identity in `Plan::executeImpl1`:
`std::equal` over the two buffer lists. -/
def inferredPlacement (src dst : List Nat) : Placement :=
  if (src.zip dst).all (fun p => p.1 = p.2) then .inPlace else .outOfPlace

/-- `Plan::executeImpl1` (single-pointer overload): optional
preserve-source check for const sources, buffer-count check, placement
inference and check, the type-properties check when the element types are
statically known (`typeProps = none` models the untyped/unsafe path), then
`executeImpl2`. -/
def executeImpl1 (desc : Desc) (srcIsConst : Bool) (src dst : List Nat)
    (typeProps : Option (TypeProps × TypeProps))
    (execParams : Option ExecParams) : Except ExecError BackendCall :=
  match (if srcIsConst then checkSrcIsPreserved desc else .ok ()) with
  | .error e => .error e
  | .ok () =>
    match checkBufferCount desc src.length dst.length with
    | .error e => .error e
    | .ok () =>
      match checkPlacement desc (inferredPlacement src dst) with
      | .error e => .error e
      | .ok () =>
        match
          (match typeProps with
           | none => Except.ok ()
           | some (sp, dp) =>
             checkExecTypeProps desc sp.precision sp.complexity
               dp.precision dp.complexity : Except ExecError Unit) with
        | .error e => .error e
        | .ok () => executeImpl2 desc src dst execParams

theorem contains_zero_eq_false_iff (s : List Nat) :
    s.contains 0 = false ↔ ∀ v ∈ s, 0 < v := by
  induction s with
  | nil => simp
  | cons x rest ih =>
    simp only [List.contains_cons, Bool.or_eq_false_iff, ih, List.mem_cons]
    constructor
    · rintro ⟨hx, hrest⟩ v (rfl | hv)
      · simp only [beq_eq_false_iff_ne] at hx
        omega
      · exact hrest v hv
    · intro h
      refine ⟨?_, fun v hv => h v (Or.inr hv)⟩
      have := h x (Or.inl rfl)
      simp only [beq_eq_false_iff_ne]
      omega

theorem copyStrides_ok_iff (s : List Nat) (rank : Nat) (err : DimsError) :
    (∃ l, copyStrides s rank err = .ok l) ↔
      (s = [] ∨ (s.length = rank ∧ ∀ v ∈ s, 0 < v)) := by
  unfold copyStrides
  by_cases hlen : s.length = rank
  · simp only [if_pos hlen]
    by_cases hz : s.contains 0
    · simp only [if_pos hz]
      constructor
      · rintro ⟨l, hl⟩; cases hl
      · rintro (rfl | ⟨-, hpos⟩)
        · simp at hz
        · have hfalse := (contains_zero_eq_false_iff s).mpr hpos
          rw [hfalse] at hz
          cases hz
    · simp only [if_neg hz]
      exact ⟨fun _ => Or.inr ⟨hlen, (contains_zero_eq_false_iff s).mp (by simpa using hz)⟩,
        fun _ => ⟨_, rfl⟩⟩
  · simp only [if_neg hlen]
    by_cases hnil : s = []
    · simp [hnil]
    · simp only [if_neg hnil]
      constructor
      · rintro ⟨l, hl⟩; cases hl
      · rintro (rfl | ⟨hcon, -⟩)
        · exact absurd rfl hnil
        · exact absurd hcon hlen

/-- C8: `DimensionsConfig` construction succeeds exactly when the rank is
within bounds, every shape extent is strictly positive, and each supplied
stride sequence is either empty or matches the rank with strictly positive
values. -/
theorem mkDimensionsConfig_ok_iff (dims : Dimensions) :
    (∃ c, mkDimensionsConfig dims = .ok c) ↔
      dims.shape.length ≤ maxDimCount ∧ (∀ e ∈ dims.shape, 0 < e) ∧
        (dims.srcStride = [] ∨
          (dims.srcStride.length = dims.shape.length ∧ ∀ v ∈ dims.srcStride, 0 < v)) ∧
        (dims.dstStride = [] ∨
          (dims.dstStride.length = dims.shape.length ∧ ∀ v ∈ dims.dstStride, 0 < v)) := by
  unfold mkDimensionsConfig
  by_cases hrank : maxDimCount < dims.shape.length
  · simp only [if_pos hrank]
    constructor
    · rintro ⟨c, hc⟩; cases hc
    · rintro ⟨hle, -⟩; omega
  · simp only [if_neg hrank]
    by_cases hz : dims.shape.contains 0
    · simp only [if_pos hz]
      constructor
      · rintro ⟨c, hc⟩; cases hc
      · rintro ⟨-, hpos, -⟩
        have := (contains_zero_eq_false_iff dims.shape).mpr hpos
        rw [this] at hz
        cases hz
    · simp only [if_neg hz]
      have hshape : ∀ e ∈ dims.shape, 0 < e :=
        (contains_zero_eq_false_iff dims.shape).mp (by simpa using hz)
      cases hsrc : copyStrides dims.srcStride dims.shape.length .invalidSrcStrideSize with
      | error e =>
        have hnok : ¬ ∃ l, copyStrides dims.srcStride dims.shape.length
            .invalidSrcStrideSize = .ok l := by
          rw [hsrc]; rintro ⟨l, hl⟩; cases hl
        rw [copyStrides_ok_iff] at hnok
        constructor
        · rintro ⟨c, hc⟩; cases hc
        · rintro ⟨-, -, hok, -⟩; exact absurd hok hnok
      | ok srcL =>
        have hsrcok : dims.srcStride = [] ∨
            (dims.srcStride.length = dims.shape.length ∧ ∀ v ∈ dims.srcStride, 0 < v) :=
          (copyStrides_ok_iff _ _ _).mp ⟨srcL, hsrc⟩
        cases hdst : copyStrides dims.dstStride dims.shape.length .invalidDstStrideSize with
        | error e =>
          have hnok : ¬ ∃ l, copyStrides dims.dstStride dims.shape.length
              .invalidDstStrideSize = .ok l := by
            rw [hdst]; rintro ⟨l, hl⟩; cases hl
          rw [copyStrides_ok_iff] at hnok
          constructor
          · rintro ⟨c, hc⟩; cases hc
          · rintro ⟨-, -, -, hok⟩; exact absurd hok hnok
        | ok dstL =>
          have hdstok : dims.dstStride = [] ∨
              (dims.dstStride.length = dims.shape.length ∧ ∀ v ∈ dims.dstStride, 0 < v) :=
            (copyStrides_ok_iff _ _ _).mp ⟨dstL, hdst⟩
          exact ⟨fun _ => ⟨by omega, hshape, hsrcok, hdstok⟩, fun _ => ⟨_, rfl⟩⟩

/-- C5 (counterexample): with shape rank `5` and the single axis `4`, all of
the claim's success conditions hold (non-empty, length within both bounds,
axis below the shape rank, distinct), yet `checkAxes` does not succeed — the
`std::bitset<maxDimCount>::test` call throws `std::out_of_range`, which is
not an invalid-argument condition. -/
theorem checkAxes_bitset_counterexample :
    (([4] : List Nat) ≠ [] ∧ ([4] : List Nat).length ≤ 5 ∧
      ([4] : List Nat).length ≤ maxDimCount ∧
      (∀ a ∈ ([4] : List Nat), a < 5) ∧ ([4] : List Nat).Nodup) ∧
    checkAxes [4] 5 = .error .bitsetOutOfRange ∧
    AxesError.bitsetOutOfRange.isInvalidArgument = false := by
  refine ⟨by decide, by decide, by decide⟩

/-- C5 (amended): `checkAxes` succeeds iff the axes are non-empty, no longer
than both the shape rank and `maxDimCount`, all strictly below both the
shape rank and `maxDimCount`, and distinct; and — provided every axis is
below `maxDimCount`, so the bitset probe stays in range — it fails with an
invalid-argument condition exactly when the axes are empty, too long for the
shape rank or for `maxDimCount`, out of shape bounds, or repeated. -/
theorem checkAxes_characterization (axes : List Nat) (shapeRank : Nat) :
    (checkAxes axes shapeRank = .ok () ↔
      axes ≠ [] ∧ axes.length ≤ shapeRank ∧ axes.length ≤ maxDimCount ∧
        (∀ a ∈ axes, a < shapeRank ∧ a < maxDimCount) ∧ axes.Nodup) ∧
    ((∀ a ∈ axes, a < maxDimCount) →
      ((∃ e, checkAxes axes shapeRank = .error e ∧ e.isInvalidArgument = true) ↔
        (axes = [] ∨ shapeRank < axes.length ∨ maxDimCount < axes.length ∨
          (∃ a ∈ axes, shapeRank ≤ a) ∨ ¬ axes.Nodup))) := by
  refine ⟨checkAxes_ok_iff axes shapeRank, ?_⟩
  intro hlt
  have hok := checkAxes_ok_iff axes shapeRank
  constructor
  · rintro ⟨e, he, -⟩
    by_contra hcon
    push_neg at hcon
    obtain ⟨h1, h2, h3, h4, h5⟩ := hcon
    have : checkAxes axes shapeRank = .ok () :=
      hok.mpr ⟨h1, by omega, by omega,
        fun a ha => ⟨by have := h4 a ha; omega, hlt a ha⟩, h5⟩
    rw [this] at he
    cases he
  · intro hdisj
    have hnok : checkAxes axes shapeRank ≠ .ok () := by
      intro hokk
      have hr := hok.mp hokk
      rcases hdisj with h | h | h | ⟨a, ha, hge⟩ | h
      · exact hr.1 h
      · have := hr.2.1; omega
      · have := hr.2.2.1; omega
      · have := (hr.2.2.2.1 a ha).1; omega
      · exact h hr.2.2.2.2
    cases hres : checkAxes axes shapeRank with
    | ok u => cases u; exact absurd hres hnok
    | error e =>
      refine ⟨e, rfl, ?_⟩
      have hne : e ≠ .bitsetOutOfRange := by
        rintro rfl
        exact (checkAxes_no_oob axes shapeRank hlt) hres
      cases e <;> simp [AxesError.isInvalidArgument] at hne ⊢

/-- Witness for the amended C5 theorem at concrete inputs. -/
theorem checkAxes_characterization_witness :
    checkAxes [0, 1] 2 = .ok () ∧
      (∃ e, checkAxes [1] 1 = .error e ∧ e.isInvalidArgument = true) :=
  ⟨(checkAxes_characterization [0, 1] 2).1.mpr (by decide),
   ((checkAxes_characterization [1] 1).2 (by decide)).mpr (by decide)⟩

/-- C4 (counterexample): a DFT parameter set with a hermitian-complex
source format and otherwise valid fields fails construction, although its
source format is not `real` (the claim asserts any such set succeeds for
every destination format). -/
theorem makeDft_hermitianSrc_counterexample :
    DftFormat.hermitianComplexInterleaved ≠ DftFormat.real ∧
    checkAxes [0] ((⟨[4], [], []⟩ : Dimensions)).shape.length = .ok () ∧
    makeDft ⟨.forward, ⟨.f32, .f32, .f32⟩, ⟨[4], [], []⟩, [0],
        .hermitianComplexInterleaved, .complexInterleaved⟩
      = .error .invalidFormats := by
  refine ⟨by decide, by decide, by decide⟩

/-- C4 (amended): for DFT parameter sets with valid axes, construction
succeeds iff the source format is `real` with a complex (interleaved or
planar) destination, or the source format is itself one of the two complex
formats (any destination); hermitian-complex source formats always fail. -/
theorem makeDft_formats_iff (p : DftParameters)
    (hax : checkAxes p.axes p.dimensions.shape.length = .ok ()) :
    (∃ c, makeDft p = .ok c) ↔
      ((p.srcFormat = .real ∧
          (p.dstFormat = .complexInterleaved ∨ p.dstFormat = .complexPlanar)) ∨
        p.srcFormat = .complexInterleaved ∨ p.srcFormat = .complexPlanar) := by
  have hfmt : dftFormatsOk p.srcFormat p.dstFormat = true ↔
      ((p.srcFormat = .real ∧
          (p.dstFormat = .complexInterleaved ∨ p.dstFormat = .complexPlanar)) ∨
        p.srcFormat = .complexInterleaved ∨ p.srcFormat = .complexPlanar) := by
    cases p.srcFormat <;> cases p.dstFormat <;> simp [dftFormatsOk]
  unfold makeDft
  rw [hax]
  by_cases h : dftFormatsOk p.srcFormat p.dstFormat
  · simp only [if_pos h]
    exact ⟨fun _ => hfmt.mp h, fun _ => ⟨_, rfl⟩⟩
  · simp only [if_neg h]
    constructor
    · rintro ⟨c, hc⟩; cases hc
    · intro hr; exact absurd (hfmt.mpr hr) h

/-- Witness for the amended C4 theorem: a real-to-complex parameter set
constructs successfully. -/
theorem makeDft_formats_iff_witness :
    ∃ c, makeDft ⟨.forward, ⟨.f32, .f32, .f32⟩, ⟨[4], [], []⟩, [0],
        .real, .complexInterleaved⟩ = .ok c :=
  (makeDft_formats_iff _ (by decide)).mpr (by decide)

theorem checkDttTypes_ok_iff (ts : List DttType) :
    checkDttTypes ts = .ok () ↔ ∀ t ∈ ts, t.val < 8 := by
  induction ts with
  | nil => simp [checkDttTypes]
  | cons t rest ih =>
    simp only [checkDttTypes, checkDttType]
    by_cases h : t.val < 8
    · simp only [if_pos h, ih, List.mem_cons]
      constructor
      · rintro hr u (rfl | hu)
        · exact h
        · exact hr u hu
      · intro hr u hu
        exact hr u (Or.inr hu)
    · simp only [if_neg h]
      constructor
      · intro hcon; cases hcon
      · intro hr
        exact absurd (hr t (by simp)) h

/-- C6: DTT construction with valid axes succeeds iff the type list has
length `1` or length equal to the axis count, and every listed type is one
of the 8 supported kinds (underlying values `0..7`). -/
theorem makeDtt_ok_iff (p : DttParameters)
    (hax : checkAxes p.axes p.dimensions.shape.length = .ok ()) :
    (∃ c, makeDtt p = .ok c) ↔
      ((p.types.length = 1 ∨ p.types.length = p.axes.length) ∧
        ∀ t ∈ p.types, t.val < 8) := by
  unfold makeDtt
  rw [hax]
  by_cases h1 : p.types.length = 1
  · obtain ⟨t0, ht0⟩ := List.length_eq_one.mp h1
    rw [ht0]
    have hlen : ([t0] : List DttType).length = 1 := rfl
    rw [if_pos hlen]
    simp only [List.getD_cons_zero, checkDttType]
    by_cases hv : t0.val < 8
    · rw [if_pos hv]
      exact ⟨fun _ => ⟨Or.inl rfl, by simpa using hv⟩, fun _ => ⟨_, rfl⟩⟩
    · rw [if_neg hv]
      constructor
      · rintro ⟨c, hc⟩; cases hc
      · rintro ⟨-, hall⟩
        exact absurd (hall t0 (by simp)) hv
  · simp only [if_neg h1]
    by_cases h2 : p.types.length = p.axes.length
    · simp only [if_pos h2]
      cases hchk : checkDttTypes p.types with
      | error e =>
        constructor
        · rintro ⟨c, hc⟩; cases hc
        · rintro ⟨-, hall⟩
          rw [(checkDttTypes_ok_iff p.types).mpr hall] at hchk
          cases hchk
      | ok u =>
        cases u
        exact ⟨fun _ => ⟨Or.inr h2, (checkDttTypes_ok_iff p.types).mp hchk⟩,
          fun _ => ⟨_, rfl⟩⟩
    · simp only [if_neg h2]
      constructor
      · rintro ⟨c, hc⟩; cases hc
      · rintro ⟨h1or2, -⟩
        rcases h1or2 with h | h
        · exact absurd h h1
        · exact absurd h h2

/-- Witness for the C6 theorem: a single broadcast `dct1` type over two
axes constructs successfully. -/
theorem makeDtt_ok_iff_witness :
    ∃ c, makeDtt ⟨.forward, ⟨.f32, .f32, .f32⟩, ⟨[4, 6], [], []⟩, [0, 1],
        [DttType.dct1]⟩ = .ok c :=
  (makeDtt_ok_iff _ (by decide)).mpr (by decide)

/-- Whether the source side of a configuration is a DFT with an interleaved
complex or interleaved hermitian-complex format (the doubling condition of
the claim). -/
def dftSrcInterleavedComplex (c : TransformConfig) : Bool :=
  match c.mVariant with
  | .dft d => d.srcFormat = DftFormat.complexInterleaved ∨
      d.srcFormat = DftFormat.hermitianComplexInterleaved
  | .dtt _ => false

/-- Destination-side analogue of `dftSrcInterleavedComplex`. -/
def dftDstInterleavedComplex (c : TransformConfig) : Bool :=
  match c.mVariant with
  | .dft d => d.dstFormat = DftFormat.complexInterleaved ∨
      d.dstFormat = DftFormat.hermitianComplexInterleaved
  | .dtt _ => false

/-- C7: both element sizes equal the byte size of their precision, doubled
exactly when the corresponding side of a DFT uses an interleaved complex or
interleaved hermitian-complex format. -/
theorem elemSize_doubling (c : TransformConfig) :
    c.getSrcElemSizeOf =
      (bif dftSrcInterleavedComplex c then sizeOfPrecision c.mPrec.source * 2
       else sizeOfPrecision c.mPrec.source) ∧
    c.getDstElemSizeOf =
      (bif dftDstInterleavedComplex c then sizeOfPrecision c.mPrec.destination * 2
       else sizeOfPrecision c.mPrec.destination) := by
  constructor
  · cases hv : c.mVariant with
    | dft d =>
      obtain ⟨sf, df⟩ := d
      cases sf <;>
        simp [TransformConfig.getSrcElemSizeOf, dftSrcInterleavedComplex, hv]
    | dtt d =>
      simp [TransformConfig.getSrcElemSizeOf, dftSrcInterleavedComplex, hv]
  · cases hv : c.mVariant with
    | dft d =>
      obtain ⟨sf, df⟩ := d
      cases df <;>
        simp [TransformConfig.getDstElemSizeOf, dftDstInterleavedComplex, hv]
    | dtt d =>
      simp [TransformConfig.getDstElemSizeOf, dftDstInterleavedComplex, hv]

theorem tcEq_make'_self (d1 d2 : Direction) (p1 p2 : PrecisionTriad)
    (axes : List Nat) (v : ConfigVariant) :
    tcEq (TransformConfig.make' d1 p1 axes v) (TransformConfig.make' d2 p2 axes v)
      = true := by
  simp [tcEq, TransformConfig.make']

theorem makeDft_ok_shape (p : DftParameters) (c : TransformConfig)
    (h : makeDft p = .ok c) :
    c = TransformConfig.make' p.direction p.precision p.axes
          (.dft ⟨p.srcFormat, p.dstFormat⟩) := by
  unfold makeDft at h
  cases hax : checkAxes p.axes p.dimensions.shape.length with
  | error e => rw [hax] at h; cases h
  | ok u =>
    cases u
    rw [hax] at h
    by_cases hf : dftFormatsOk p.srcFormat p.dstFormat
    · rw [if_pos hf] at h
      cases h
      rfl
    · rw [if_neg hf] at h
      cases h

theorem makeDtt_ok_shape (p : DttParameters) (c : TransformConfig)
    (h : makeDtt p = .ok c) :
    (p.types.length = 1 ∧
      c = TransformConfig.make' p.direction p.precision p.axes
            (.dtt ⟨padArray ⟨0⟩ (List.replicate p.axes.length (p.types.getD 0 ⟨0⟩))⟩)) ∨
    (p.types.length ≠ 1 ∧
      c = TransformConfig.make' p.direction p.precision p.axes
            (.dtt ⟨padArray ⟨0⟩ p.types⟩)) := by
  unfold makeDtt at h
  cases hax : checkAxes p.axes p.dimensions.shape.length with
  | error e => rw [hax] at h; cases h
  | ok u =>
    cases u
    rw [hax] at h
    by_cases h1 : p.types.length = 1
    · rw [if_pos h1] at h
      cases hchk : checkDttType (p.types.getD 0 ⟨0⟩) with
      | error e => rw [hchk] at h; cases h
      | ok u =>
        cases u
        rw [hchk] at h
        cases h
        exact Or.inl ⟨h1, rfl⟩
    · rw [if_neg h1] at h
      by_cases h2 : p.types.length = p.axes.length
      · rw [if_pos h2] at h
        cases hchk : checkDttTypes p.types with
        | error e => rw [hchk] at h; cases h
        | ok u =>
          cases u
          rw [hchk] at h
          cases h
          exact Or.inr ⟨h1, rfl⟩
      · rw [if_neg h2] at h
        cases h

/-- C9: `operator==` on `TransformConfig` ignores the direction and the
precision triad — two configurations built from parameter sets that agree
on axes and variant data but differ in direction or precision compare
equal. -/
theorem tcEq_ignores_direction_precision :
    (∀ (d1 d2 : Direction) (p1 p2 : PrecisionTriad) (dims1 dims2 : Dimensions)
        (axes : List Nat) (sf df : DftFormat) (c1 c2 : TransformConfig),
      makeDft ⟨d1, p1, dims1, axes, sf, df⟩ = .ok c1 →
      makeDft ⟨d2, p2, dims2, axes, sf, df⟩ = .ok c2 →
      tcEq c1 c2 = true) ∧
    (∀ (d1 d2 : Direction) (p1 p2 : PrecisionTriad) (dims1 dims2 : Dimensions)
        (axes : List Nat) (ts : List DttType) (c1 c2 : TransformConfig),
      makeDtt ⟨d1, p1, dims1, axes, ts⟩ = .ok c1 →
      makeDtt ⟨d2, p2, dims2, axes, ts⟩ = .ok c2 →
      tcEq c1 c2 = true) := by
  constructor
  · intro d1 d2 p1 p2 dims1 dims2 axes sf df c1 c2 h1 h2
    rw [makeDft_ok_shape _ _ h1, makeDft_ok_shape _ _ h2]
    exact tcEq_make'_self _ _ _ _ _ _
  · intro d1 d2 p1 p2 dims1 dims2 axes ts c1 c2 h1 h2
    rcases makeDtt_ok_shape _ _ h1 with ⟨hl1, he1⟩ | ⟨hl1, he1⟩ <;>
      rcases makeDtt_ok_shape _ _ h2 with ⟨hl2, he2⟩ | ⟨hl2, he2⟩
    · rw [he1, he2]; exact tcEq_make'_self _ _ _ _ _ _
    · exact absurd hl1 hl2
    · exact absurd hl2 hl1
    · rw [he1, he2]; exact tcEq_make'_self _ _ _ _ _ _

/-- Witness for the C9 theorem: two DFT configurations differing only in
direction and precision triad compare equal. -/
theorem tcEq_ignores_direction_precision_witness :
    tcEq
      (TransformConfig.make' .forward ⟨.f32, .f32, .f32⟩ [0]
        (.dft ⟨.real, .complexInterleaved⟩))
      (TransformConfig.make' .inverse ⟨.f64, .f64, .f64⟩ [0]
        (.dft ⟨.real, .complexInterleaved⟩)) = true :=
  tcEq_ignores_direction_precision.1 .forward .inverse ⟨.f32, .f32, .f32⟩
    ⟨.f64, .f64, .f64⟩ ⟨[4], [], []⟩ ⟨[4], [], []⟩ [0] .real .complexInterleaved
    _ _ (by decide) (by decide)

/-- A concrete DFT configuration (forward single-precision real-to-complex
transform over axis `0`). -/
def dftCfgNorm : TransformConfig :=
  TransformConfig.make' .forward ⟨.f32, .f32, .f32⟩ [0]
    (.dft ⟨.real, .complexInterleaved⟩)

/-- A concrete DTT configuration (forward single-precision `dct1` over
axis `0`). -/
def dttCfgNorm : TransformConfig :=
  TransformConfig.make' .forward ⟨.f32, .f32, .f32⟩ [0]
    (.dtt ⟨padArray ⟨0⟩ [DttType.dct1]⟩)

/-- C1: as written, `getNormFactor` throws on every configuration and
shape — the missing `break` statements make the `dft` case fall into the
`dtt` case (whose `std::get<DttConfig>` throws `std::bad_variant_access`)
and the `dtt` case fall into `default:` (which throws
`"Invalid transform type"`).  In particular the concrete DFT configuration
over shape `[4]` throws instead of returning the factor, while the
spec-intended computation yields `1/n` with `n = 4`, and the concrete
`dct1` configuration over shape `[5]` throws, while the spec-intended
computation yields `1/n` with `n = 2*(5-1) = 8`. -/
theorem getNormFactor_always_throws :
    (∀ (c : TransformConfig) (shape : List Nat),
      ∃ e, c.getNormFactor shape = .error e) ∧
    dftCfgNorm.getNormFactor [4] = .error .badVariantAccess ∧
    dttCfgNorm.getNormFactor [5] = .error .invalidTransformType ∧
    normFactorSpec dftCfgNorm .unitary [4] = .ok (.inv 4) ∧
    normFactorSpec dttCfgNorm .unitary [5] = .ok (.inv 8) ∧
    normFactorSpec dftCfgNorm .none [4] = .ok .one ∧
    normFactorSpec dftCfgNorm .orthogonal [4] = .ok (.invSqrt 4) := by
  refine ⟨?_, by decide, by decide, by decide, by decide, by decide, by decide⟩
  intro c shape
  unfold TransformConfig.getNormFactor
  cases c.mVariant with
  | dft d => exact ⟨.badVariantAccess, rfl⟩
  | dtt d =>
    cases h : dttNormLoop
        ((d.axisTypes.take c.mRank).zip (c.getAxes.map (fun a => shape.getD a 0))) 1 with
    | error e => exact ⟨e, by simp only [h]⟩
    | ok n => exact ⟨.invalidTransformType, by simp only [h]⟩

/-- The real-to-hermitian-complex DFT configuration of the spec's stride
example (2D transform, reduced axis `1`). -/
def cfgStrideEx : TransformConfig :=
  TransformConfig.make' .forward ⟨.f32, .f32, .f32⟩ [0, 1]
    (.dft ⟨.real, .hermitianComplexInterleaved⟩)

/-- The dimensions configuration for logical shape `(4, 6)` with no
caller-supplied strides. -/
def dimsStrideEx : DimensionsConfig :=
  ⟨2, [4, 6, 0, 0], [0, 0, 0, 0], [0, 0, 0, 0]⟩

/-- C2 (counterexample): for the claim's own example — a 2D real-to-complex
transform of shape `(4, 6)` — the derived destination row stride is `6` for
both placements (the default row-major rule), not the claimed `8` (in-place)
or `4` (out-of-place): the missing `break` lets the `default:` case
regenerate the strides after the hermitian-packed pass. -/
theorem correctDims_example_counterexample :
    ((correctDimensionsConfig cfgStrideEx dimsStrideEx ⟨.none, .inPlace⟩).mDstStrides.getD 0 0 = 6 ∧
      (correctDimensionsConfig cfgStrideEx dimsStrideEx ⟨.none, .inPlace⟩).mDstStrides.getD 0 0 ≠ 8) ∧
    ((correctDimensionsConfig cfgStrideEx dimsStrideEx ⟨.none, .outOfPlace⟩).mDstStrides.getD 0 0 = 6 ∧
      (correctDimensionsConfig cfgStrideEx dimsStrideEx ⟨.none, .outOfPlace⟩).mDstStrides.getD 0 0 ≠ 4) := by
  refine ⟨⟨by decide, by decide⟩, ⟨by decide, by decide⟩⟩

/-- C2 (amended): whenever the source (resp. destination) strides were not
supplied, `correctDimensionsConfig` fills them with the plain row-major
default rule regardless of transform type, format or placement: the
format-specific generation pass is immediately overwritten by the
`default:` pass because the `switch` lacks a `break` after the `dft`
case. -/
theorem correctDims_always_default (cfg : TransformConfig)
    (d : DimensionsConfig) (cp : CommonParameters)
    (hlen : d.mShape.length = maxDimCount) (hrank : d.mRank ≤ maxDimCount)
    (hsrc : d.hasSrcStride = false) (hdst : d.hasDstStride = false) :
    (correctDimensionsConfig cfg d cp).mSrcStrides.take d.mRank =
        rowMajorStrides d.getShape ∧
      (correctDimensionsConfig cfg d cp).mDstStrides.take d.mRank =
        rowMajorStrides d.getShape := by
  have hshape : d.getShape.length = d.mRank := by
    simp only [DimensionsConfig.getShape, List.length_take, hlen]
    omega
  have hgen : genStrides (defaultStrideGenerator d.getShape) d.mRank =
      rowMajorStrides d.getShape := by
    rw [← hshape]
    exact genStrides_default_eq d.getShape
  have hglen : (genStrides (defaultStrideGenerator d.getShape) d.mRank).length
      = d.mRank := genStridesAux_length _ _ _
  have htake : ∀ z : List Nat,
      (genStrides (defaultStrideGenerator d.getShape) d.mRank ++ z).take d.mRank
        = rowMajorStrides d.getShape := by
    intro z
    rw [← hgen]
    rw [List.take_left' hglen]
  set redAxis := cfg.mAxes.getD (maxDimCount - 1) 0 with hred
  set gen := genStrides (defaultStrideGenerator d.getShape) d.mRank with hgdef
  have hpass1 : ∀ X : DimensionsConfig,
      (X.setSrcStrides gen).hasDstStride = X.hasDstStride := fun X => rfl
  have hsrcpass_dst :
      (srcStrideCasePass cfg d d.getShape d.mRank redAxis cp.placement).hasDstStride
        = d.hasDstStride := by
    simp only [DimensionsConfig.hasDstStride, srcStrideCasePass_mDstStrides]
  have hmain : correctDimensionsConfig cfg d cp =
      (dstStrideCasePass cfg
        ((srcStrideCasePass cfg d d.getShape d.mRank redAxis cp.placement).setSrcStrides gen)
        d.getShape d.mRank redAxis cp.placement).setDstStrides gen := by
    unfold correctDimensionsConfig
    rw [hsrc]
    simp only [Bool.false_eq_true, if_false]
    rw [hpass1, hsrcpass_dst, hdst]
    simp only [Bool.false_eq_true, if_false]
  constructor
  · rw [hmain]
    simp only [DimensionsConfig.setDstStrides, dstStrideCasePass_mSrcStrides,
      DimensionsConfig.setSrcStrides]
    exact htake _
  · rw [hmain]
    simp only [DimensionsConfig.setDstStrides]
    exact htake _

/-- Witness for the amended C2 theorem at the spec's `(4, 6)` example: both
derived stride sequences are the row-major defaults `[6, 1]`. -/
theorem correctDims_always_default_witness :
    (correctDimensionsConfig cfgStrideEx dimsStrideEx ⟨.none, .inPlace⟩).mSrcStrides.take
        dimsStrideEx.mRank = rowMajorStrides dimsStrideEx.getShape ∧
      (correctDimensionsConfig cfgStrideEx dimsStrideEx ⟨.none, .inPlace⟩).mDstStrides.take
        dimsStrideEx.mRank = rowMajorStrides dimsStrideEx.getShape :=
  correctDims_always_default cfgStrideEx dimsStrideEx ⟨.none, .inPlace⟩
    (by decide) (by decide) (by decide) (by decide)

/-- The type-properties gate of `executeImpl1`: trivially satisfied on the
untyped path, `checkExecTypeProps` on the typed path. -/
def execTypeCheck (desc : Desc) (tp : Option (TypeProps × TypeProps)) :
    Except ExecError Unit :=
  match tp with
  | none => Except.ok ()
  | some (sp, dp) =>
    checkExecTypeProps desc sp.precision sp.complexity dp.precision dp.complexity

theorem executeImpl1_eq (desc : Desc) (srcIsConst : Bool) (src dst : List Nat)
    (tp : Option (TypeProps × TypeProps)) (ep : Option ExecParams) :
    executeImpl1 desc srcIsConst src dst tp ep =
      match (if srcIsConst then checkSrcIsPreserved desc else .ok ()) with
      | .error e => .error e
      | .ok () =>
        match checkBufferCount desc src.length dst.length with
        | .error e => .error e
        | .ok () =>
          match checkPlacement desc (inferredPlacement src dst) with
          | .error e => .error e
          | .ok () =>
            match execTypeCheck desc tp with
            | .error e => .error e
            | .ok () => executeImpl2 desc src dst ep := by
  unfold executeImpl1 execTypeCheck
  rfl

/-- C3: the sequential execute-time validation of `Plan::executeImpl1` /
`executeImpl2`: a wrong source (resp. destination) buffer count fails with
the corresponding buffer-count error; with correct counts, a mismatch
between the placement inferred from pointer identity and the declared
placement fails with the placement-mismatch error; with counts and
placement accepted (and the type check passing when element types are
known), a null source (resp. destination) pointer fails with the
corresponding null-buffer error; and a backend entry point is reached
(an `.ok` backend-call record) only when every one of those checks
passes — so in each failure case no backend execution entry point is
invoked. -/
theorem executeImpl1_validation (desc : Desc) (srcIsConst : Bool)
    (src dst : List Nat) (tp : Option (TypeProps × TypeProps))
    (ep : Option ExecParams)
    (hpres : srcIsConst = false ∨ desc.preserveSource = true) :
    (src.length ≠ desc.targetCount →
      executeImpl1 desc srcIsConst src dst tp ep = .error .invalidSrcBufferCount) ∧
    (src.length = desc.targetCount → dst.length ≠ desc.targetCount →
      executeImpl1 desc srcIsConst src dst tp ep = .error .invalidDstBufferCount) ∧
    (src.length = desc.targetCount → dst.length = desc.targetCount →
      inferredPlacement src dst ≠ desc.placement →
      executeImpl1 desc srcIsConst src dst tp ep = .error .placementMismatch) ∧
    (src.length = desc.targetCount → dst.length = desc.targetCount →
      inferredPlacement src dst = desc.placement →
      execTypeCheck desc tp = .ok () → 0 ∈ src →
      executeImpl1 desc srcIsConst src dst tp ep = .error .nullSrcBuffer) ∧
    (src.length = desc.targetCount → dst.length = desc.targetCount →
      inferredPlacement src dst = desc.placement →
      execTypeCheck desc tp = .ok () → 0 ∉ src → 0 ∈ dst →
      executeImpl1 desc srcIsConst src dst tp ep = .error .nullDstBuffer) ∧
    (∀ call, executeImpl1 desc srcIsConst src dst tp ep = .ok call →
      src.length = desc.targetCount ∧ dst.length = desc.targetCount ∧
        inferredPlacement src dst = desc.placement ∧ 0 ∉ src ∧ 0 ∉ dst) := by
  have hpres' : (if srcIsConst then checkSrcIsPreserved desc else .ok ()) =
      (Except.ok () : Except ExecError Unit) := by
    rcases hpres with h | h
    · rw [h]; rfl
    · cases srcIsConst
      · rfl
      · simp [checkSrcIsPreserved, h]
  rw [executeImpl1_eq, hpres']
  refine ⟨?_, ?_, ?_, ?_, ?_, ?_⟩
  · intro hsrc
    simp [checkBufferCount, hsrc]
  · intro hsrc hdst
    simp [checkBufferCount, hsrc, hdst]
  · intro hsrc hdst hpl
    simp only [checkBufferCount, if_neg (by omega : ¬ src.length ≠ desc.targetCount),
      if_neg (by omega : ¬ dst.length ≠ desc.targetCount)]
    simp [checkPlacement, hpl]
  · intro hsrc hdst hpl htp hnull
    simp only [checkBufferCount, if_neg (by omega : ¬ src.length ≠ desc.targetCount),
      if_neg (by omega : ¬ dst.length ≠ desc.targetCount)]
    simp only [checkPlacement, if_neg (by simp [hpl] : ¬ inferredPlacement src dst ≠ desc.placement)]
    rw [htp]
    unfold executeImpl2
    have : src.any (fun p => p = 0) = true := by
      simp only [List.any_eq_true, decide_eq_true_eq]
      exact ⟨0, hnull, rfl⟩
    rw [if_pos this]
  · intro hsrc hdst hpl htp hnosrc hnull
    simp only [checkBufferCount, if_neg (by omega : ¬ src.length ≠ desc.targetCount),
      if_neg (by omega : ¬ dst.length ≠ desc.targetCount)]
    simp only [checkPlacement, if_neg (by simp [hpl] : ¬ inferredPlacement src dst ≠ desc.placement)]
    rw [htp]
    unfold executeImpl2
    have hs : src.any (fun p => p = 0) = false := by
      simp only [List.any_eq_false, decide_eq_true_eq]
      intro p hp hp0
      exact hnosrc (hp0 ▸ hp)
    have hd : dst.any (fun p => p = 0) = true := by
      simp only [List.any_eq_true, decide_eq_true_eq]
      exact ⟨0, hnull, rfl⟩
    rw [if_neg (by simp [hs]), if_pos hd]
  · intro call hcall
    by_cases hsrc : src.length = desc.targetCount
    · by_cases hdst : dst.length = desc.targetCount
      · simp only [checkBufferCount, if_neg (by omega : ¬ src.length ≠ desc.targetCount),
          if_neg (by omega : ¬ dst.length ≠ desc.targetCount)] at hcall
        by_cases hpl : inferredPlacement src dst = desc.placement
        · simp only [checkPlacement,
            if_neg (by simp [hpl] : ¬ inferredPlacement src dst ≠ desc.placement)] at hcall
          cases htp : execTypeCheck desc tp with
          | error e => rw [htp] at hcall; cases hcall
          | ok u =>
            cases u
            rw [htp] at hcall
            unfold executeImpl2 at hcall
            by_cases hs : src.any (fun p => p = 0)
            · rw [if_pos hs] at hcall; cases hcall
            · rw [if_neg hs] at hcall
              by_cases hd : dst.any (fun p => p = 0)
              · rw [if_pos hd] at hcall; cases hcall
              · refine ⟨hsrc, hdst, hpl, ?_, ?_⟩
                · intro hmem
                  apply hs
                  simp only [List.any_eq_true, decide_eq_true_eq]
                  exact ⟨0, hmem, rfl⟩
                · intro hmem
                  apply hd
                  simp only [List.any_eq_true, decide_eq_true_eq]
                  exact ⟨0, hmem, rfl⟩
        · simp only [checkPlacement, if_pos (by simp [hpl] : inferredPlacement src dst ≠ desc.placement)] at hcall
          cases hcall
      · simp only [checkBufferCount, if_neg (by omega : ¬ src.length ≠ desc.targetCount),
          if_pos (by omega : dst.length ≠ desc.targetCount)] at hcall
        cases hcall
    · simp only [checkBufferCount, if_pos (by omega : src.length ≠ desc.targetCount)] at hcall
      cases hcall

/-- Witness for the C3 theorem: on a single-target out-of-place CPU plan, an
empty source buffer list is rejected with the source buffer-count error, and
identical source/destination pointers are rejected with the
placement-mismatch error. -/
theorem executeImpl1_validation_witness :
    executeImpl1 ⟨⟨.f32, .f32, .f32⟩, .real, .complex, .outOfPlace, 1, true, .cpu, .spst⟩
        false [] [5] none none = .error .invalidSrcBufferCount ∧
    executeImpl1 ⟨⟨.f32, .f32, .f32⟩, .real, .complex, .outOfPlace, 1, true, .cpu, .spst⟩
        false [5] [5] none none = .error .placementMismatch :=
  ⟨(executeImpl1_validation _ false [] [5] none none (Or.inl rfl)).1 (by decide),
   (executeImpl1_validation _ false [5] [5] none none (Or.inl rfl)).2.2.1
      (by decide) (by decide) (by decide)⟩

/-- C10: for an in-place plan `checkExecTypeProps` inspects only the source
type — its result is unchanged by the destination arguments, and it accepts
exactly when the source precision matches either declared precision and the
source complexity matches either declared complexity; the whole typed
`executeImpl1` pipeline is likewise independent of the destination type
properties.  Only out-of-place placement rejects a mismatching destination
type. -/
theorem checkExecTypeProps_inPlace_srcOnly :
    (∀ (desc : Desc) (sp : Precision) (sc : Complexity)
        (dp dp' : Precision) (dc dc' : Complexity),
      desc.placement = .inPlace →
      checkExecTypeProps desc sp sc dp dc = checkExecTypeProps desc sp sc dp' dc') ∧
    (∀ (desc : Desc) (sp : Precision) (sc : Complexity)
        (dp : Precision) (dc : Complexity),
      desc.placement = .inPlace →
      (checkExecTypeProps desc sp sc dp dc = .ok () ↔
        (sp = desc.precision.source ∨ sp = desc.precision.destination) ∧
          (sc = desc.srcComplexity ∨ sc = desc.dstComplexity))) ∧
    (∀ (desc : Desc) (sp : Precision) (sc : Complexity)
        (dp : Precision) (dc : Complexity),
      desc.placement = .outOfPlace → dp ≠ desc.precision.destination →
      checkExecTypeProps desc sp sc dp dc ≠ .ok ()) ∧
    (∀ (desc : Desc) (srcIsConst : Bool) (src dst : List Nat)
        (sp dpp dpp' : TypeProps) (ep : Option ExecParams),
      desc.placement = .inPlace →
      executeImpl1 desc srcIsConst src dst (some (sp, dpp)) ep =
        executeImpl1 desc srcIsConst src dst (some (sp, dpp')) ep) := by
  have hkey : ∀ (desc : Desc) (sp : Precision) (sc : Complexity)
      (dp dp' : Precision) (dc dc' : Complexity),
      desc.placement = .inPlace →
      checkExecTypeProps desc sp sc dp dc = checkExecTypeProps desc sp sc dp' dc' := by
    intro desc sp sc dp dp' dc dc' hpl
    unfold checkExecTypeProps
    rw [hpl]
  refine ⟨hkey, ?_, ?_, ?_⟩
  · intro desc sp sc dp dc hpl
    unfold checkExecTypeProps
    rw [hpl]
    by_cases h1 : sp ≠ desc.precision.source ∧ sp ≠ desc.precision.destination
    · rw [if_pos h1]
      constructor
      · intro hc; cases hc
      · rintro ⟨hor, -⟩
        rcases hor with h | h <;> [exact absurd h h1.1; exact absurd h h1.2]
    · rw [if_neg h1]
      by_cases h2 : sc ≠ desc.srcComplexity ∧ sc ≠ desc.dstComplexity
      · rw [if_pos h2]
        constructor
        · intro hc; cases hc
        · rintro ⟨-, hor⟩
          rcases hor with h | h <;> [exact absurd h h2.1; exact absurd h h2.2]
      · rw [if_neg h2]
        constructor
        · intro _
          constructor
          · by_contra hcon
            push_neg at hcon
            exact h1 hcon
          · by_contra hcon
            push_neg at hcon
            exact h2 hcon
        · intro _; rfl
  · intro desc sp sc dp dc hpl hdp
    unfold checkExecTypeProps
    rw [hpl]
    by_cases h1 : sp ≠ desc.precision.source
    · rw [if_pos h1]; intro hc; cases hc
    · rw [if_neg h1, if_pos hdp]; intro hc; cases hc
  · intro desc srcIsConst src dst sp dpp dpp' ep hpl
    unfold executeImpl1
    simp only [hkey desc sp.precision sp.complexity dpp.precision dpp'.precision
      dpp.complexity dpp'.complexity hpl]

/-- Witness for the C10 theorem: on an in-place plan declaring `f32`
real-to-complex, a source typed `f32`/`real` is accepted even when the
destination buffer is typed `f64`/`real` (both mismatching the declared
destination side). -/
theorem checkExecTypeProps_inPlace_srcOnly_witness :
    checkExecTypeProps ⟨⟨.f32, .f32, .f32⟩, .real, .complex, .inPlace, 1, true, .cpu, .spst⟩
        .f32 .real .f64 .real = .ok () ∧
    checkExecTypeProps ⟨⟨.f32, .f32, .f32⟩, .real, .complex, .outOfPlace, 1, true, .cpu, .spst⟩
        .f32 .real .f64 .real ≠ .ok () :=
  ⟨(checkExecTypeProps_inPlace_srcOnly.2.1 _ .f32 .real .f64 .real rfl).mpr
      (by decide),
   checkExecTypeProps_inPlace_srcOnly.2.2.1 _ .f32 .real .f64 .real rfl
      (by decide)⟩

end afft
